import Mathlib

/-!
Verification of the graph-to-diagram pipeline of the parodesign repository.

The development shallowly embeds the TypeScript sources:
  * the diagram validator / extractor / marker stripper (diagram parser module),
  * the layout engine wrapper around the external dagre library,
  * the tldraw shape synthesizer.

JavaScript runtime values reachable by the untrusted validator input are
modelled by the inductive type `JSValue`; JS numbers are modelled by `Int`
(the claims under study never depend on non-integral or NaN inputs), and
object/array identity (reference) equality is modelled as `false` on distinct
value trees, which is exact for values produced by `JSON.parse`.
-/

set_option autoImplicit false

/-- Model of a JavaScript runtime value (`undefined`, `null`, booleans,
numbers, strings, arrays, plain objects). -/
inductive JSValue where
  | undefined : JSValue
  | null : JSValue
  | bool : Bool → JSValue
  | num : Int → JSValue
  | str : String → JSValue
  | arr : List JSValue → JSValue
  | obj : List (String × JSValue) → JSValue

/-- JS truthiness: `undefined`, `null`, `false`, `0` and the empty string are
falsy; arrays and objects are always truthy. -/
def truthy : JSValue → Bool
  | .undefined => false
  | .null => false
  | .bool b => b
  | .num n => !(n == 0)
  | .str s => !(s == "")
  | .arr _ => true
  | .obj _ => true

/-- The string produced by the JS `typeof` operator on a modelled value. -/
def typeofJS : JSValue → String
  | .undefined => "undefined"
  | .null => "object"
  | .bool _ => "boolean"
  | .num _ => "number"
  | .str _ => "string"
  | .arr _ => "object"
  | .obj _ => "object"

/-- Whether the value is `null` or `undefined` (property access throws). -/
def isNullish : JSValue → Bool
  | .null => true
  | .undefined => true
  | _ => false

/-- `Array.isArray`. -/
def isArray : JSValue → Bool
  | .arr _ => true
  | _ => false

/-- First-match lookup in an object's field list. -/
def jlookup : List (String × JSValue) → String → Option JSValue
  | [], _ => none
  | p :: rest, k => if p.1 == k then some p.2 else jlookup rest k

/-- JS property access `v[k]`: throws a TypeError on `null`/`undefined`,
returns `undefined` for a missing field or a primitive receiver. -/
def getProp : JSValue → String → Except Unit JSValue
  | .undefined, _ => .error ()
  | .null, _ => .error ()
  | .obj fs, k => .ok ((jlookup fs k).getD .undefined)
  | _, _ => .ok .undefined

/-- Total variant of property access used by specification predicates:
nullish and primitive receivers simply give `undefined`. -/
def getPropD : JSValue → String → JSValue
  | .obj fs, k => (jlookup fs k).getD .undefined
  | _, _ => .undefined

/-- Whether an object value has the field `k` present (own property). -/
def hasOwn : JSValue → String → Bool
  | .obj fs, k => (jlookup fs k).isSome
  | _, _ => false

/-- JS strict equality `===` restricted to the modelled values: structural on
primitives, `false` whenever either side is an array or object (distinct
`JSON.parse` subtrees are distinct references). -/
def strictEq : JSValue → JSValue → Bool
  | .undefined, .undefined => true
  | .null, .null => true
  | .bool a, .bool b => a == b
  | .num a, .num b => a == b
  | .str a, .str b => a == b
  | _, _ => false

def idKey : String := "id"
def labelKey : String := "label"
def typeKey : String := "type"
def sourceKey : String := "source"
def targetKey : String := "target"
def nodesKey : String := "nodes"
def edgesKey : String := "edges"

/-- The node-type enumeration accepted by the validator (source order). -/
def validTypes : List String := ["start", "process", "decision", "end", "data", "default"]

/-- Per-node check of `validateDiagram`: requires truthy `id`, `label`,
`type` and `type` within `validTypes`; throws when the node is nullish. -/
def checkNode (node : JSValue) : Except Unit Bool :=
  match getProp node idKey, getProp node labelKey, getProp node typeKey with
  | .ok idv, .ok labelv, .ok tyv =>
    if !truthy idv || !truthy labelv || !truthy tyv then .ok false
    else if !(validTypes.any (fun t => strictEq tyv (JSValue.str t))) then .ok false
    else .ok true
  | _, _, _ => .error ()

/-- The node loop of `validateDiagram`: first failing node decides. -/
def checkNodes : List JSValue → Except Unit Bool
  | [] => .ok true
  | n :: rest =>
    match checkNode n with
    | .error e => .error e
    | .ok false => .ok false
    | .ok true => checkNodes rest

/-- `diagram.nodes.some(n => n.id === v)`. -/
def someIdEq : List JSValue → JSValue → Except Unit Bool
  | [], _ => .ok false
  | n :: rest, v =>
    match getProp n idKey with
    | .error e => .error e
    | .ok idv => if strictEq idv v then .ok true else someIdEq rest v

/-- Per-edge check of `validateDiagram`: truthy `id`, `source`, `target` and
both endpoints must match some node id. -/
def checkEdge (ns : List JSValue) (edge : JSValue) : Except Unit Bool :=
  match getProp edge idKey, getProp edge sourceKey, getProp edge targetKey with
  | .ok idv, .ok sv, .ok tv =>
    if !truthy idv || !truthy sv || !truthy tv then .ok false
    else
      match someIdEq ns sv, someIdEq ns tv with
      | .ok se, .ok te => if !se || !te then .ok false else .ok true
      | .error e, _ => .error e
      | _, .error e => .error e
  | _, _, _ => .error ()

/-- The edge loop of `validateDiagram`. -/
def checkEdges (ns : List JSValue) : List JSValue → Except Unit Bool
  | [] => .ok true
  | e :: rest =>
    match checkEdge ns e with
    | .error err => .error err
    | .ok false => .ok false
    | .ok true => checkEdges ns rest

/-- Embedding of `validateDiagram` (diagram parser module): `.ok b` models a
normal return of `b`, `.error ()` models an uncaught TypeError. -/
def validateDiagram (diagram : JSValue) : Except Unit Bool :=
  if !truthy diagram || !(typeofJS diagram == "object") then .ok false
  else
    match getProp diagram nodesKey, getProp diagram edgesKey with
    | .ok (.arr ns), .ok (.arr es) =>
      (match checkNodes ns with
       | .error e => .error e
       | .ok false => .ok false
       | .ok true =>
         match checkEdges ns es with
         | .error e => .error e
         | .ok false => .ok false
         | .ok true => .ok true)
    | .ok _, .ok _ => .ok false
    | .error e, _ => .error e
    | _, .error e => .error e

/-- Specification-side per-node acceptance predicate (total). -/
def nodeOk (n : JSValue) : Bool :=
  truthy (getPropD n idKey) && truthy (getPropD n labelKey) && truthy (getPropD n typeKey) &&
    validTypes.any (fun t => strictEq (getPropD n typeKey) (JSValue.str t))

/-- Whether `v` strictly equals the id of some node in `ns`. -/
def hasNodeId (ns : List JSValue) (v : JSValue) : Bool :=
  ns.any (fun n => strictEq (getPropD n idKey) v)

/-- Specification-side per-edge acceptance predicate (total). -/
def edgeOk (ns : List JSValue) (e : JSValue) : Bool :=
  truthy (getPropD e idKey) && truthy (getPropD e sourceKey) && truthy (getPropD e targetKey) &&
    hasNodeId ns (getPropD e sourceKey) && hasNodeId ns (getPropD e targetKey)

/-- Top-level structural guard of the validator. -/
def topOk (d : JSValue) : Bool :=
  truthy d && typeofJS d == "object"

/-- Extracts the node and edge lists when the top-level structural checks
(truthy object-typed value with array `nodes` and `edges`) pass. -/
def topShape (d : JSValue) : Option (List JSValue × List JSValue) :=
  if topOk d then
    match getPropD d nodesKey, getPropD d edgesKey with
    | .arr ns, .arr es => some (ns, es)
    | _, _ => none
  else none

/-- Specification-side acceptance predicate for the whole diagram. -/
def validSpec (d : JSValue) : Bool :=
  match topShape d with
  | some p => p.1.all nodeOk && p.2.all (edgeOk p.1)
  | none => false

/-- Specification-side characterization of when `validateDiagram` throws:
the structural checks pass and the first node failing the per-node check
(or, all nodes passing, the first edge failing the per-edge check) is
itself `null` or `undefined`. -/
def throwsSpec (d : JSValue) : Bool :=
  match topShape d with
  | some p =>
    match p.1.find? (fun n => !nodeOk n) with
    | some n => isNullish n
    | none =>
      match p.2.find? (fun e => !(edgeOk p.1 e)) with
      | some e => isNullish e
      | none => false
  | none => false

/-- Claim-literal reading of a node "lacking" a field: the field is absent
as an own property. -/
def claimNodeLacks (n : JSValue) : Bool :=
  !(hasOwn n idKey) || !(hasOwn n labelKey) || !(hasOwn n typeKey)

/-- Claim-literal reading of a node type outside the enumeration. -/
def claimTypeOutside (n : JSValue) : Bool :=
  !(validTypes.any (fun t => strictEq (getPropD n typeKey) (JSValue.str t)))

/-- Claim-literal reading of an edge lacking `id`, `source` or `target`. -/
def claimEdgeLacks (e : JSValue) : Bool :=
  !(hasOwn e idKey) || !(hasOwn e sourceKey) || !(hasOwn e targetKey)

/-- Claim-literal reading of a dangling edge endpoint. -/
def claimEdgeDangling (ns : List JSValue) (e : JSValue) : Bool :=
  !(hasNodeId ns (getPropD e sourceKey)) || !(hasNodeId ns (getPropD e targetKey))

/-- The rejection condition exactly as the claim states it: top-level not an
object, `nodes`/`edges` not arrays, a node lacking `id`/`label`/`type` or
typed outside the enumeration, or an edge lacking `id`/`source`/`target` or
referencing a missing node id. -/
def claimRejects (d : JSValue) : Bool :=
  match d with
  | .obj _ =>
    (match getPropD d nodesKey, getPropD d edgesKey with
     | .arr ns, .arr es =>
       ns.any (fun n => claimNodeLacks n || claimTypeOutside n) ||
         es.any (fun e => claimEdgeLacks e || claimEdgeDangling ns e)
     | _, _ => true)
  | _ => true

/-- The literal start delimiter looked up by the extractor. -/
def startMarker : List Char := "[DIAGRAM_START]".data

/-- The literal end delimiter looked up by the extractor. -/
def endMarker : List Char := "[DIAGRAM_END]".data

/-- The placeholder the stripper substitutes for a delimited block. -/
def placeholder : List Char := "[Diagram generated]".data

/-- `String.prototype.indexOf`: index of the first occurrence of `pat`. -/
def firstOccur (pat : List Char) : List Char → Option Nat
  | [] => if pat.isPrefixOf ([] : List Char) then some 0 else none
  | c :: rest =>
    if pat.isPrefixOf (c :: rest) then some 0
    else (firstOccur pat rest).map (fun i => i + 1)

/-- `String.prototype.substring`: clamps both indices to the string length
and swaps them when given in descending order. -/
def jsSubstring (s : List Char) (a b : Nat) : List Char :=
  let x := min a s.length
  let y := min b s.length
  (s.drop (min x y)).take (max x y - min x y)

/-- The whitespace class removed by `String.prototype.trim` (the code points
relevant to this development). -/
def jsWhitespace (c : Char) : Bool :=
  c == ' ' || c == '\t' || c == '\n' || c == '\r' || c == '\x0b' || c == '\x0c' || c == ' '

/-- `String.prototype.trim`. -/
def jsTrim (s : List Char) : List Char :=
  ((s.dropWhile jsWhitespace).reverse.dropWhile jsWhitespace).reverse

/-- Embedding of `extractDiagramFromResponse` (diagram parser module).
`JSON.parse` is a platform builtin absent from the repository; it is
abstracted as the `parse` argument, with `none` standing for a parse
failure (a thrown SyntaxError, caught by the surrounding try/catch). A
TypeError thrown by `validateDiagram` is likewise caught and gives `none`. -/
def extractDiagramFromResponse (parse : List Char → Option JSValue)
    (response : List Char) : Option JSValue :=
  match firstOccur startMarker response, firstOccur endMarker response with
  | some si, some ei =>
    (match parse (jsTrim (jsSubstring response (si + startMarker.length) ei)) with
     | none => none
     | some diagram =>
       match validateDiagram diagram with
       | .ok true => some diagram
       | _ => none)
  | _, _ => none

/-- Core of `stripDiagramMarkers`: the global lazy regex replace. Each match
starts at the first remaining occurrence of the start marker and ends at the
first following occurrence of the end marker; the scan resumes after the
replaced block. When either marker is missing, no further match exists. -/
def stripCore (s : List Char) : List Char :=
  match h1 : firstOccur startMarker s with
  | none => s
  | some i =>
    match firstOccur endMarker (s.drop (i + startMarker.length)) with
    | none => s
    | some k =>
      s.take i ++ placeholder ++
        stripCore (s.drop (i + startMarker.length + k + endMarker.length))
termination_by s.length
decreasing_by
  rcases s with _ | ⟨c, rest⟩
  · rw [show firstOccur startMarker ([] : List Char) = none from by decide] at h1
    exact absurd h1 (by simp)
  · have hs : startMarker.length = 15 := by decide
    simp only [List.length_drop, List.length_cons]
    omega

/-- Embedding of `stripDiagramMarkers` (diagram parser module). -/
def stripDiagramMarkers (s : List Char) : List Char :=
  jsTrim (stripCore s)

/-- Node in the semantic graph (before layout); `type` carries the runtime
string of the TS literal-union type. -/
structure GraphNode where
  id : String
  label : String
  type : String
  metadata : Option JSValue := none

/-- Edge connecting nodes. -/
structure GraphEdge where
  id : String
  source : String
  target : String
  label : Option String := none

/-- Complete graph structure from the AI. -/
structure GraphModel where
  nodes : List GraphNode
  edges : List GraphEdge

/-- Node after layout, with top-left coordinates; JS numbers are modelled by
exact rationals. -/
structure PositionedNode extends GraphNode where
  x : Rat
  y : Rat
  width : Rat
  height : Rat

/-- Layout result: positioned nodes plus the original edges. -/
structure LayoutResult where
  nodes : List PositionedNode
  edges : List GraphEdge

/-- Layout configuration options (every field optional). -/
structure LayoutOptions where
  rankdir : Option String := none
  nodesep : Option Rat := none
  ranksep : Option Rat := none
  nodeWidth : Option Rat := none
  nodeHeight : Option Rat := none

/-- A node entry as fed to the dagre graph by `getAutoLayout`. -/
structure DagreNodeEntry where
  id : String
  label : String
  width : Rat
  height : Rat

/-- Everything `getAutoLayout` feeds into the dagre graph before calling
`dagre.layout`: graph options, node boxes and edges. -/
structure DagreConfig where
  rankdir : String
  nodesep : Rat
  ranksep : Rat
  nodes : List DagreNodeEntry
  edges : List (String × String)

/-- The dagre graph as configured by `getAutoLayout` from a model and
options, with the source defaults `TB`, 50, 100, 180, 80. -/
def buildDagreConfig (graphModel : GraphModel) (options : LayoutOptions) : DagreConfig :=
  { rankdir := options.rankdir.getD ("TB")
    nodesep := options.nodesep.getD 50
    ranksep := options.ranksep.getD 100
    nodes := graphModel.nodes.map (fun node =>
      { id := node.id, label := node.label,
        width := options.nodeWidth.getD 180, height := options.nodeHeight.getD 80 })
    edges := graphModel.edges.map (fun e => (e.source, e.target)) }

/-- Embedding of `getAutoLayout` (layout-engine.ts). The external dagre
library is not part of the repository; `dagre.layout` followed by
`graph.node(id)` is abstracted as the deterministic position oracle
`dagrePos`, which returns the center coordinates dagre assigns to a node id
for a given configured graph. The code under test is the wrapper: building
the dagre graph and converting center positions to top-left corners. -/
def getAutoLayout (dagrePos : DagreConfig → String → Rat × Rat)
    (graphModel : GraphModel) (options : LayoutOptions) : LayoutResult :=
  let nodeWidth := options.nodeWidth.getD 180
  let nodeHeight := options.nodeHeight.getD 80
  let cfg := buildDagreConfig graphModel options
  { nodes := graphModel.nodes.map (fun node =>
      { toGraphNode := node
        x := (dagrePos cfg node.id).1 - nodeWidth / 2
        y := (dagrePos cfg node.id).2 - nodeHeight / 2
        width := nodeWidth
        height := nodeHeight })
    edges := graphModel.edges }

/-- Embedding of `getGeoTypeForNode` (tldraw helpers): the switch mapping
node types to tldraw geo primitives, defaulting to `rectangle`. -/
def getGeoTypeForNode (nodeType : String) : String :=
  match nodeType with
  | "decision" => "diamond"
  | "start" => "ellipse"
  | "end" => "ellipse"
  | "data" => "trapezoid"
  | _ => "rectangle"

/-- The color ternary of the node-shape creation call. -/
def nodeColor (t : String) : String :=
  if t == "start" then "green" else if t == "end" then "red" else "blue"

/-- A geo shape-creation instruction (box, primitive kind, label, color). -/
structure GeoShape where
  x : Rat
  y : Rat
  w : Rat
  h : Rat
  geo : String
  text : String
  color : String
deriving DecidableEq

/-- An arrow shape-creation instruction (two endpoints and a label). -/
structure ArrowShape where
  startX : Rat
  startY : Rat
  endX : Rat
  endY : Rat
  text : String
deriving DecidableEq

/-- The batch of shape-creation instructions emitted by the synthesizer:
node shapes in node order, then connectors in edge order. -/
structure ShapeBatch where
  geos : List GeoShape
  arrows : List ArrowShape

/-- JS `edge.label || ''`. -/
def jsOrEmpty : Option String → String
  | some s => if s == "" then "" else s
  | none => ""

/-- The geo instruction created for one positioned node. -/
def nodeGeo (node : PositionedNode) : GeoShape :=
  { x := node.x, y := node.y, w := node.width, h := node.height,
    geo := getGeoTypeForNode node.type, text := node.label, color := nodeColor node.type }

/-- The `nodeShapeMap` built by the first forEach: one entry per node, in
order, keyed by node id (later entries shadow earlier ones, as `Map.set`
overwrites). Values stand for the fresh shape ids. -/
def buildNodeShapeMap (nodes : List PositionedNode) (i : Nat) : List (String × Nat) :=
  match nodes with
  | [] => []
  | n :: rest => (n.id, i) :: buildNodeShapeMap rest (i + 1)

/-- `Map.get`: the most recently set binding wins. -/
def mapGet (m : List (String × Nat)) (k : String) : Option Nat :=
  match m.reverse.find? (fun p => p.1 == k) with
  | some p => some p.2
  | none => none

/-- The connector synthesized for one edge: `none` when either endpoint
fails to resolve through the id map or the node list. Anchors are the
bottom-center of the source box and the top-center of the target box. -/
def edgeArrow (layout : LayoutResult) (edge : GraphEdge) : Option ArrowShape :=
  match mapGet (buildNodeShapeMap layout.nodes 0) edge.source,
        mapGet (buildNodeShapeMap layout.nodes 0) edge.target with
  | some _, some _ =>
    (match layout.nodes.find? (fun n => n.id == edge.source),
           layout.nodes.find? (fun n => n.id == edge.target) with
     | some sourceNode, some targetNode =>
       some { startX := sourceNode.x + sourceNode.width / 2
              startY := sourceNode.y + sourceNode.height
              endX := targetNode.x + targetNode.width / 2
              endY := targetNode.y
              text := jsOrEmpty edge.label }
     | _, _ => none)
  | _, _ => none

/-- Embedding of `generateTldrawShapes` (tldraw helpers): the sequence of
`editor.createShape` calls, as a batch value. Fresh shape ids are not
modelled (they carry no information compared by any property). -/
def generateTldrawShapes (layout : LayoutResult) : ShapeBatch :=
  { geos := layout.nodes.map nodeGeo
    arrows := layout.edges.filterMap (edgeArrow layout) }

/-- Modelled from the spec: the midpoint of the downstream face of a node
box for each layout direction (the face an outgoing connector should leave
from). Used only to state the claim about direction-aware anchoring. -/
def downstreamFace (dir : String) (n : PositionedNode) : Rat × Rat :=
  if dir == "TB" then (n.x + n.width / 2, n.y + n.height)
  else if dir == "BT" then (n.x + n.width / 2, n.y)
  else if dir == "LR" then (n.x + n.width, n.y + n.height / 2)
  else (n.x, n.y + n.height / 2)

/-- Modelled from the spec: the midpoint of the upstream face of a node box
for each layout direction (the face an incoming connector should enter). -/
def upstreamFace (dir : String) (n : PositionedNode) : Rat × Rat :=
  if dir == "TB" then (n.x + n.width / 2, n.y)
  else if dir == "BT" then (n.x + n.width / 2, n.y + n.height)
  else if dir == "LR" then (n.x, n.y + n.height / 2)
  else (n.x + n.width, n.y + n.height / 2)

/-- A node whose three fields are all present but whose `id` is the empty
string. -/
def exNodeEmptyId : JSValue :=
  .obj [(idKey, JSValue.str ("")), (labelKey, JSValue.str ("A")), (typeKey, JSValue.str ("start"))]

/-- A diagram containing `exNodeEmptyId` and no edges. -/
def exDiagramEmptyId : JSValue :=
  .obj [(nodesKey, JSValue.arr [exNodeEmptyId]), (edgesKey, JSValue.arr [])]

/-- A diagram whose single node entry is `null`. -/
def exDiagramNullNode : JSValue :=
  .obj [(nodesKey, JSValue.arr [JSValue.null]), (edgesKey, JSValue.arr [])]

/-- A node whose `label` field is present but the empty string. -/
def exNodeEmptyLabel : JSValue :=
  .obj [(idKey, JSValue.str ("n1")), (labelKey, JSValue.str ("")), (typeKey, JSValue.str ("start"))]

/-- A diagram containing `exNodeEmptyLabel` and no edges. -/
def exDiagramEmptyLabel : JSValue :=
  .obj [(nodesKey, JSValue.arr [exNodeEmptyLabel]), (edgesKey, JSValue.arr [])]

/-- A structurally valid diagram (empty node and edge arrays). -/
def exGoodDiagram : JSValue :=
  .obj [(nodesKey, JSValue.arr []), (edgesKey, JSValue.arr [])]

/-- A parse oracle that always succeeds with `exGoodDiagram`. -/
def exParse : List Char → Option JSValue := fun _ => some exGoodDiagram

/-- A response consisting of the two markers back to back. -/
def exResponse : List Char := startMarker ++ endMarker

/-- Left node of a horizontally laid out pair (as a dagre LR layout would
position it). -/
def exNodeA : PositionedNode :=
  { id := "a", label := "A", type := "process", x := 0, y := 0, width := 180, height := 80 }

/-- Right node of the pair. -/
def exNodeB : PositionedNode :=
  { id := "b", label := "B", type := "process", x := 280, y := 0, width := 180, height := 80 }

/-- The edge from `exNodeA` to `exNodeB`. -/
def exEdgeAB : GraphEdge := { id := "e1", source := "a", target := "b" }

/-- A layout result shaped like a left-to-right layout of two nodes. -/
def exLayoutLR : LayoutResult := { nodes := [exNodeA, exNodeB], edges := [exEdgeAB] }

/-- A constant dagre position oracle used in witnesses. -/
def exDagrePos : DagreConfig → String → Rat × Rat := fun _ _ => (90, 40)

/-- A one-node graph model used in witnesses. -/
def exGraphModel : GraphModel :=
  { nodes := [{ id := "n1", label := "A", type := "start" }], edges := [] }

/-- Default layout options (every field absent). -/
def exOptions : LayoutOptions := {}

/-- The positioned node produced for `exGraphModel` under `exDagrePos`. -/
def exPositionedNode : PositionedNode :=
  { id := "n1", label := "A", type := "start", x := 0, y := 0, width := 180, height := 80 }

theorem truthy_not_nullish {d : JSValue} (h : truthy d = true) : isNullish d = false := by
  cases d <;> simp_all [truthy, isNullish]

theorem getProp_eq_ok (n : JSValue) (k : String) (h : isNullish n = false) :
    getProp n k = .ok (getPropD n k) := by
  cases n <;> simp_all [getProp, getPropD, isNullish]

theorem nodeOk_of_nullish {n : JSValue} (h : isNullish n = true) : nodeOk n = false := by
  cases n <;> simp_all [isNullish, nodeOk, getPropD, truthy]

theorem edgeOk_of_nullish {ns : List JSValue} {e : JSValue} (h : isNullish e = true) :
    edgeOk ns e = false := by
  cases e <;> simp_all [isNullish, edgeOk, getPropD, truthy]

theorem ifChain3 (a b c d : Bool) :
    (if !a || !b || !c then (Except.ok false : Except Unit Bool)
     else if !d then .ok false else .ok true) = .ok (a && b && c && d) := by
  cases a <;> cases b <;> cases c <;> cases d <;> rfl

theorem ifChain5 (a b c s t : Bool) :
    (if !a || !b || !c then (Except.ok false : Except Unit Bool)
     else if !s || !t then .ok false else .ok true) = .ok (a && b && c && s && t) := by
  cases a <;> cases b <;> cases c <;> cases s <;> cases t <;> rfl

theorem checkNode_eq (n : JSValue) :
    checkNode n = if isNullish n then .error () else .ok (nodeOk n) := by
  cases hn : isNullish n
  · simp only [checkNode, getProp_eq_ok n idKey hn, getProp_eq_ok n labelKey hn,
      getProp_eq_ok n typeKey hn, hn, Bool.false_eq_true, if_false]
    unfold nodeOk
    exact ifChain3 _ _ _ _
  · cases n <;> simp_all [checkNode, getProp, isNullish]

theorem checkNodes_eq (ns : List JSValue) :
    checkNodes ns =
      match ns.find? (fun n => !nodeOk n) with
      | some n => if isNullish n then .error () else .ok false
      | none => .ok true := by
  induction ns with
  | nil => rfl
  | cons n rest ih =>
    simp only [checkNodes, checkNode_eq n]
    cases hn : isNullish n
    · cases hb : nodeOk n
      · simp [List.find?_cons, hb, hn]
      · simp [List.find?_cons, hb, ih]
    · have hb : nodeOk n = false := nodeOk_of_nullish hn
      simp [List.find?_cons, hb, hn]

theorem someIdEq_eq (ns : List JSValue) (v : JSValue)
    (h : ∀ n ∈ ns, isNullish n = false) :
    someIdEq ns v = .ok (hasNodeId ns v) := by
  induction ns with
  | nil => rfl
  | cons n rest ih =>
    have hn : isNullish n = false := h n (List.mem_cons_self n rest)
    simp only [someIdEq, getProp_eq_ok n idKey hn]
    cases hs : strictEq (getPropD n idKey) v
    · rw [ih (fun m hm => h m (List.mem_cons_of_mem n hm))]
      simp [hasNodeId, hs]
    · simp [hasNodeId, hs]

theorem checkEdge_eq (ns : List JSValue) (e : JSValue)
    (h : ∀ n ∈ ns, isNullish n = false) :
    checkEdge ns e = if isNullish e then .error () else .ok (edgeOk ns e) := by
  cases he : isNullish e
  · simp only [checkEdge, getProp_eq_ok e idKey he, getProp_eq_ok e sourceKey he,
      getProp_eq_ok e targetKey he, someIdEq_eq ns _ h, he, Bool.false_eq_true, if_false]
    unfold edgeOk
    exact ifChain5 _ _ _ _ _
  · cases e <;> simp_all [checkEdge, getProp, isNullish]

theorem checkEdges_eq (ns : List JSValue) (es : List JSValue)
    (h : ∀ n ∈ ns, isNullish n = false) :
    checkEdges ns es =
      match es.find? (fun e => !(edgeOk ns e)) with
      | some e => if isNullish e then .error () else .ok false
      | none => .ok true := by
  induction es with
  | nil => rfl
  | cons e rest ih =>
    simp only [checkEdges, checkEdge_eq ns e h]
    cases hne : isNullish e
    · cases hb : edgeOk ns e
      · simp [List.find?_cons, hb, hne]
      · simp [List.find?_cons, hb, ih]
    · have hb : edgeOk ns e = false := edgeOk_of_nullish hne
      simp [List.find?_cons, hb, hne]

theorem all_eq_false_of_find? {p : JSValue → Bool} {l : List JSValue} {x : JSValue}
    (h : l.find? (fun y => !p y) = some x) : l.all p = false := by
  have hx := List.find?_some h
  have hm : x ∈ l := List.mem_of_find?_eq_some h
  cases hall : l.all p
  · rfl
  · have := List.all_eq_true.mp hall x hm
    simp [this] at hx

theorem all_eq_true_of_find?_none {p : JSValue → Bool} {l : List JSValue}
    (h : l.find? (fun y => !p y) = none) : l.all p = true := by
  refine List.all_eq_true.mpr (fun x hx => ?_)
  have := List.find?_eq_none.mp h x hx
  simpa using this

theorem validateDiagram_eq (d : JSValue) :
    validateDiagram d = if throwsSpec d then .error () else .ok (validSpec d) := by
  unfold validateDiagram validSpec throwsSpec topShape
  cases htop : topOk d
  · have hguard : (!truthy d || !(typeofJS d == "object")) = true := by
      unfold topOk at htop
      cases h1 : truthy d <;> cases h2 : typeofJS d == "object" <;> simp_all
    simp [hguard, htop]
  · have h12 : truthy d = true ∧ (typeofJS d == "object") = true := by
      simpa [topOk, Bool.and_eq_true] using htop
    obtain ⟨h1, h2⟩ := h12
    have hguard : (!truthy d || !(typeofJS d == "object")) = false := by
      simp [h1, h2]
    have hd : isNullish d = false := truthy_not_nullish h1
    simp only [hguard, Bool.false_eq_true, if_false, htop, if_true,
      getProp_eq_ok d nodesKey hd, getProp_eq_ok d edgesKey hd]
    cases hnv : getPropD d nodesKey <;> cases hev : getPropD d edgesKey <;>
      simp only []
    case arr.arr ns es =>
      rw [checkNodes_eq ns]
      cases hf : ns.find? (fun n => !nodeOk n) with
      | some n =>
        have hall : ns.all nodeOk = false := all_eq_false_of_find? hf
        cases hnn : isNullish n <;> simp [hall, hnn]
      | none =>
        have hall : ns.all nodeOk = true := all_eq_true_of_find?_none hf
        have hnonnull : ∀ n ∈ ns, isNullish n = false := by
          intro n hn
          cases h2 : isNullish n
          · rfl
          · have := List.all_eq_true.mp hall n hn
            simp [nodeOk_of_nullish h2] at this
        rw [checkEdges_eq ns es hnonnull]
        cases hf2 : es.find? (fun e => !(edgeOk ns e)) with
        | some e =>
          have halle : es.all (edgeOk ns) = false := all_eq_false_of_find? hf2
          cases hne : isNullish e <;> simp [hall, halle, hne]
        | none =>
          have halle : es.all (edgeOk ns) = true := all_eq_true_of_find?_none hf2
          simp [hall, halle]
    all_goals simp

/-- Claim C1 (amended): `validateDiagram` throws a TypeError exactly when the
top-level value is a truthy object-typed value whose `nodes` and `edges` are
arrays and the first node failing the per-node check (or, all nodes passing,
the first edge failing the per-edge check) is itself null or undefined;
otherwise it returns acceptance exactly when the top-level checks pass,
every node has truthy (present and non-falsy) `id`, `label` and `type` with
`type` in the enumeration, and every edge has truthy `id`, `source` and
`target` strictly equal to the id of some node; in all remaining cases it
returns rejection. -/
theorem validateDiagram_characterization :
    ∀ d : JSValue,
      validateDiagram d = if throwsSpec d then .error () else .ok (validSpec d) :=
  validateDiagram_eq

/-- Claim C1 counterexample: a diagram whose only node carries all three
fields, with `id` the empty string and `type` in the enumeration, violates
none of the claim's rejection conditions, yet the validator rejects it; and
a diagram whose node entry is `null` satisfies the claim's "lacks id"
rejection condition, yet the validator throws a TypeError instead of
returning the promised non-throwing negative result. -/
theorem validateDiagram_claim_counterexample :
    (claimRejects exDiagramEmptyId = false ∧ validateDiagram exDiagramEmptyId = .ok false)
    ∧ (claimRejects exDiagramNullNode = true ∧ validateDiagram exDiagramNullNode = .error ()) :=
  ⟨⟨rfl, rfl⟩, ⟨rfl, rfl⟩⟩

/-- Claim C10: the validator's field checks test truthiness, not presence: a
node (or edge) of an otherwise well-shaped diagram whose `id`, `label`,
`type` (resp. `id`, `source`, `target`) field evaluates to a falsy value —
in particular the empty string, whether or not the field is present — makes
acceptance impossible. -/
theorem validateDiagram_truthiness :
    (∀ (d : JSValue) (ns es : List JSValue) (n : JSValue),
      topShape d = some (ns, es) → n ∈ ns →
      (truthy (getPropD n idKey) = false ∨ truthy (getPropD n labelKey) = false ∨
        truthy (getPropD n typeKey) = false) →
      validateDiagram d ≠ .ok true)
    ∧ (∀ (d : JSValue) (ns es : List JSValue) (e : JSValue),
      topShape d = some (ns, es) → e ∈ es →
      (truthy (getPropD e idKey) = false ∨ truthy (getPropD e sourceKey) = false ∨
        truthy (getPropD e targetKey) = false) →
      validateDiagram d ≠ .ok true) := by
  constructor
  · intro d ns es n hshape hmem hbad hacc
    rw [validateDiagram_eq d] at hacc
    have hvalid : validSpec d = true := by
      cases ht : throwsSpec d <;> rw [ht] at hacc <;> simp_all
    unfold validSpec at hvalid
    rw [hshape] at hvalid
    have hnode : nodeOk n = true := by
      have hall : ns.all nodeOk = true := by
        cases hh : ns.all nodeOk <;> simp_all
      exact List.all_eq_true.mp hall n hmem
    unfold nodeOk at hnode
    rcases hbad with hb | hb | hb <;> simp [hb] at hnode
  · intro d ns es e hshape hmem hbad hacc
    rw [validateDiagram_eq d] at hacc
    have hvalid : validSpec d = true := by
      cases ht : throwsSpec d <;> rw [ht] at hacc <;> simp_all
    unfold validSpec at hvalid
    rw [hshape] at hvalid
    have hedge : edgeOk ns e = true := by
      have hall : es.all (edgeOk ns) = true := by
        cases hh : es.all (edgeOk ns) <;> simp_all
      exact List.all_eq_true.mp hall e hmem
    unfold edgeOk at hedge
    rcases hbad with hb | hb | hb <;> simp [hb] at hedge

/-- Claim C10 witness: a concrete diagram whose node has `label` present but
equal to the empty string is not accepted. -/
theorem validateDiagram_truthiness_witness :
    validateDiagram exDiagramEmptyLabel ≠ .ok true :=
  validateDiagram_truthiness.1 exDiagramEmptyLabel [exNodeEmptyLabel] [] exNodeEmptyLabel
    rfl (List.Mem.head _) (Or.inr (Or.inl rfl))

/-- Claim C2: the extractor returns null when either marker is absent, when
the delimited substring fails to parse, or when the parsed value fails
validation (including a validator TypeError, absorbed by the try/catch); it
never propagates an exception (it is a total function into Option); and
when the delimited block parses and validates it returns that parsed model. -/
theorem extractDiagram_characterization :
    ∀ (parse : List Char → Option JSValue) (response : List Char),
      ((firstOccur startMarker response = none ∨ firstOccur endMarker response = none) →
        extractDiagramFromResponse parse response = none)
      ∧ (∀ si ei, firstOccur startMarker response = some si →
          firstOccur endMarker response = some ei →
          ((parse (jsTrim (jsSubstring response (si + startMarker.length) ei)) = none →
             extractDiagramFromResponse parse response = none)
           ∧ (∀ j, parse (jsTrim (jsSubstring response (si + startMarker.length) ei)) = some j →
               ((validateDiagram j = .ok true →
                   extractDiagramFromResponse parse response = some j)
                ∧ (validateDiagram j ≠ .ok true →
                   extractDiagramFromResponse parse response = none))))) := by
  intro parse response
  constructor
  · intro h
    unfold extractDiagramFromResponse
    rcases h with h | h
    · rw [h]
    · rw [h]
      cases firstOccur startMarker response <;> rfl
  · intro si ei hs he
    constructor
    · intro hp
      unfold extractDiagramFromResponse
      rw [hs, he]
      simp only [hp]
    · intro j hp
      constructor
      · intro hv
        unfold extractDiagramFromResponse
        rw [hs, he]
        simp only [hp, hv]
      · intro hv
        unfold extractDiagramFromResponse
        rw [hs, he]
        simp only [hp]

/-- Claim C2 witness: on a response made of the two markers back to back,
with a parse oracle returning a structurally valid model, the extractor
returns that model. -/
theorem extractDiagram_characterization_witness :
    extractDiagramFromResponse exParse exResponse = some exGoodDiagram :=
  (((extractDiagram_characterization exParse exResponse).2 0 15 rfl rfl).2
    exGoodDiagram rfl).1 rfl

theorem drop_append_len : ∀ (a b : List Char) (n : Nat), (a ++ b).drop (a.length + n) = b.drop n := by
  intro a
  induction a with
  | nil => intro b n; simp
  | cons c rest ih => intro b n; simpa [Nat.succ_add] using ih b n

theorem drop_append_self (a b : List Char) : (a ++ b).drop a.length = b := by
  simpa using drop_append_len a b 0

theorem take_append_self (a b : List Char) : (a ++ b).take a.length = a := by
  induction a with
  | nil => rfl
  | cons c rest ih => simp [ih]

theorem stripCore_of_no_start (s : List Char) (h : firstOccur startMarker s = none) :
    stripCore s = s := by
  unfold stripCore
  split
  · rfl
  · rename_i i heq
    rw [h] at heq
    cases heq

theorem stripCore_block (pre mid post : List Char)
    (h1 : firstOccur startMarker (pre ++ startMarker ++ mid ++ endMarker ++ post) =
      some pre.length)
    (h2 : firstOccur endMarker (mid ++ endMarker ++ post) = some mid.length) :
    stripCore (pre ++ startMarker ++ mid ++ endMarker ++ post) =
      pre ++ placeholder ++ stripCore post := by
  have hsplit : pre ++ startMarker ++ mid ++ endMarker ++ post =
      pre ++ (startMarker ++ (mid ++ (endMarker ++ post))) := by
    simp [List.append_assoc]
  have h2' : firstOccur endMarker (mid ++ (endMarker ++ post)) = some mid.length := by
    simpa [List.append_assoc] using h2
  have hdropA : (pre ++ startMarker ++ mid ++ endMarker ++ post).drop
      (pre.length + startMarker.length) = mid ++ (endMarker ++ post) := by
    rw [hsplit, drop_append_len pre _ startMarker.length, drop_append_self startMarker _]
  conv_lhs => rw [stripCore.eq_def]
  split
  · rename_i heq
    rw [h1] at heq
    cases heq
  · rename_i i heq
    rw [h1] at heq
    have hi : i = pre.length := (Option.some.inj heq).symm
    subst hi
    split
    · rename_i heq2
      rw [hdropA, h2'] at heq2
      cases heq2
    · rename_i k heq2
      rw [hdropA, h2'] at heq2
      have hk : k = mid.length := (Option.some.inj heq2).symm
      subst hk
      have htake : (pre ++ startMarker ++ mid ++ endMarker ++ post).take pre.length = pre := by
        rw [hsplit]
        exact take_append_self pre _
      have hdropB : (pre ++ startMarker ++ mid ++ endMarker ++ post).drop
          (pre.length + startMarker.length + mid.length + endMarker.length) = post := by
        rw [hsplit]
        rw [show pre.length + startMarker.length + mid.length + endMarker.length =
          pre.length + (startMarker.length + (mid.length + endMarker.length)) from by omega]
        rw [drop_append_len pre _ _, drop_append_len startMarker _ _,
          drop_append_len mid _ _, drop_append_self endMarker post]
      rw [htake, hdropB]

/-- Claim C9: `stripDiagramMarkers` replaces each delimited block, inclusive
of the two markers, with the human-readable placeholder, and when the start
marker is absent it returns the input changed only by trimming. -/
theorem stripDiagramMarkers_spec :
    (∀ s : List Char, firstOccur startMarker s = none → stripDiagramMarkers s = jsTrim s)
    ∧ (∀ pre mid post : List Char,
        firstOccur startMarker (pre ++ startMarker ++ mid ++ endMarker ++ post) =
          some pre.length →
        firstOccur endMarker (mid ++ endMarker ++ post) = some mid.length →
        stripDiagramMarkers (pre ++ startMarker ++ mid ++ endMarker ++ post) =
          jsTrim (pre ++ placeholder ++ stripCore post)) := by
  constructor
  · intro s h
    unfold stripDiagramMarkers
    rw [stripCore_of_no_start s h]
  · intro pre mid post h1 h2
    unfold stripDiagramMarkers
    rw [stripCore_block pre mid post h1 h2]

/-- Claim C9 witness: a marker-free string is only trimmed, and a string
consisting of exactly one delimited block is replaced by the placeholder. -/
theorem stripDiagramMarkers_spec_witness :
    stripDiagramMarkers ("hello".data) = jsTrim ("hello".data)
    ∧ stripDiagramMarkers (([] : List Char) ++ startMarker ++ ([] : List Char) ++
        endMarker ++ ([] : List Char)) =
      jsTrim (([] : List Char) ++ placeholder ++ stripCore ([] : List Char)) :=
  ⟨stripDiagramMarkers_spec.1 ("hello".data) rfl,
   stripDiagramMarkers_spec.2 [] [] [] rfl rfl⟩

theorem find?_isSome_eq_any {α : Type} (p : α → Bool) (l : List α) :
    (l.find? p).isSome = l.any p := by
  induction l with
  | nil => rfl
  | cons a rest ih =>
    cases ha : p a <;> simp [List.find?_cons, ha, ih]

theorem mapGet_isSome_any (m : List (String × Nat)) (k : String) :
    (mapGet m k).isSome = m.any (fun p => p.1 == k) := by
  unfold mapGet
  have h := find?_isSome_eq_any (fun p => p.1 == k) m.reverse
  rw [List.any_reverse] at h
  cases hf : m.reverse.find? (fun p => p.1 == k) with
  | none =>
    rw [hf] at h
    simp only [Option.isSome_none] at h
    simp [← h]
  | some p =>
    rw [hf] at h
    simp only [Option.isSome_some] at h
    simp [← h]

theorem buildMap_any (nodes : List PositionedNode) (i : Nat) (k : String) :
    (buildNodeShapeMap nodes i).any (fun p => p.1 == k) =
      nodes.any (fun n => n.id == k) := by
  induction nodes generalizing i with
  | nil => rfl
  | cons n rest ih => simp [buildNodeShapeMap, List.any_cons, ih]

theorem mapGet_isSome (nodes : List PositionedNode) (k : String) :
    (mapGet (buildNodeShapeMap nodes 0) k).isSome = nodes.any (fun n => n.id == k) := by
  rw [mapGet_isSome_any, buildMap_any]

theorem edgeArrow_isSome (layout : LayoutResult) (e : GraphEdge) :
    (edgeArrow layout e).isSome =
      ((layout.nodes.any (fun n => n.id == e.source)) &&
        (layout.nodes.any (fun n => n.id == e.target))) := by
  unfold edgeArrow
  cases hs : mapGet (buildNodeShapeMap layout.nodes 0) e.source with
  | none =>
    have h := mapGet_isSome layout.nodes e.source
    rw [hs] at h
    simp only [Option.isSome_none] at h
    simp [← h]
  | some a =>
    have h := mapGet_isSome layout.nodes e.source
    rw [hs] at h
    simp only [Option.isSome_some] at h
    cases ht : mapGet (buildNodeShapeMap layout.nodes 0) e.target with
    | none =>
      have h2 := mapGet_isSome layout.nodes e.target
      rw [ht] at h2
      simp only [Option.isSome_none] at h2
      simp [← h, ← h2]
    | some b =>
      have h2 := mapGet_isSome layout.nodes e.target
      rw [ht] at h2
      simp only [Option.isSome_some] at h2
      have hfs : (layout.nodes.find? (fun n => n.id == e.source)).isSome = true := by
        rw [find?_isSome_eq_any, ← h]
      have hft : (layout.nodes.find? (fun n => n.id == e.target)).isSome = true := by
        rw [find?_isSome_eq_any, ← h2]
      obtain ⟨sn, hsn⟩ := Option.isSome_iff_exists.mp hfs
      obtain ⟨tn, htn⟩ := Option.isSome_iff_exists.mp hft
      simp [hsn, htn, ← h, ← h2]

/-- Claim C4: the node-type-to-primitive mapping is total on the six
enumerated types with decision ↦ diamond, start/end ↦ ellipse,
data ↦ trapezoid, process/default ↦ rectangle. -/
theorem getGeoTypeForNode_mapping :
    getGeoTypeForNode ("decision") = ("diamond")
    ∧ getGeoTypeForNode ("start") = ("ellipse")
    ∧ getGeoTypeForNode ("end") = ("ellipse")
    ∧ getGeoTypeForNode ("data") = ("trapezoid")
    ∧ getGeoTypeForNode ("process") = ("rectangle")
    ∧ getGeoTypeForNode ("default") = ("rectangle") :=
  ⟨rfl, rfl, rfl, rfl, rfl, rfl⟩

/-- Claim C5: for every layout result, the synthesizer emits exactly one geo
instruction per positioned node (in order, with the node's box, kind, label
and color), and emits exactly one connector per edge whose source and target
both resolve through the node-id map, skipping every dangling edge without
failing the batch or dropping any node shape. -/
theorem generateTldrawShapes_defensive :
    ∀ layout : LayoutResult,
      (generateTldrawShapes layout).geos = layout.nodes.map nodeGeo
      ∧ (generateTldrawShapes layout).arrows.length =
          (layout.edges.filter (fun e =>
            (layout.nodes.any (fun n => n.id == e.source)) &&
              (layout.nodes.any (fun n => n.id == e.target)))).length := by
  intro layout
  refine ⟨rfl, ?_⟩
  show (layout.edges.filterMap (edgeArrow layout)).length = _
  have key : ∀ es : List GraphEdge,
      (es.filterMap (edgeArrow layout)).length =
        (es.filter (fun e =>
          (layout.nodes.any (fun n => n.id == e.source)) &&
            (layout.nodes.any (fun n => n.id == e.target)))).length := by
    intro es
    induction es with
    | nil => rfl
    | cons e rest ih =>
      have hh := edgeArrow_isSome layout e
      cases ha : edgeArrow layout e with
      | none =>
        rw [ha] at hh
        simp only [Option.isSome_none] at hh
        simp [List.filterMap_cons, List.filter_cons, ha, ← hh, ih]
      | some a =>
        rw [ha] at hh
        simp only [Option.isSome_some] at hh
        simp [List.filterMap_cons, List.filter_cons, ha, ← hh, ih]
  exact key layout.edges

/-- Claim C3 counterexample: on a layout result shaped like a left-to-right
layout (two boxes side by side), the synthesizer's connector runs from the
bottom-center of the source box to the top-center of the target box, not
from the right-face midpoint to the left-face midpoint that the claim
requires for the LR direction. -/
theorem connector_direction_counterexample :
    (generateTldrawShapes exLayoutLR).arrows =
      [{ startX := 90, startY := 80, endX := 370, endY := 0, text := "" }]
    ∧ downstreamFace ("LR") exNodeA = (180, 40)
    ∧ upstreamFace ("LR") exNodeB = (280, 40)
    ∧ (((90 : Rat), (80 : Rat)) ≠ ((180 : Rat), (40 : Rat))) := by
  refine ⟨?_, ?_, ?_, ?_⟩
  · have hba : (("b" == "a") : Bool) = false := by decide
    have hab : (("a" == "b") : Bool) = false := by decide
    have haa : (("a" == "a") : Bool) = true := by decide
    have hbb : (("b" == "b") : Bool) = true := by decide
    simp only [generateTldrawShapes, exLayoutLR, exEdgeAB, exNodeA, exNodeB, edgeArrow,
      mapGet, buildNodeShapeMap, jsOrEmpty, List.filterMap_cons, List.filterMap_nil,
      List.find?, hba, hab, haa, hbb]
    norm_num
  · unfold downstreamFace
    rw [if_neg (by decide), if_neg (by decide), if_pos (by decide)]
    norm_num [exNodeA]
  · unfold upstreamFace
    rw [if_neg (by decide), if_neg (by decide), if_pos (by decide)]
    norm_num [exNodeB]
  · intro h
    have := congrArg Prod.fst h
    norm_num at this

/-- Claim C3 (amended): for every layout result and every edge whose source
and target resolve, the synthesized connector starts at the bottom-face
midpoint of the source box and ends at the top-face midpoint of the target
box — the top-to-bottom convention, regardless of the layout direction —
and carries the edge's label (empty when absent). -/
theorem connector_bottom_top :
    ∀ (layout : LayoutResult) (edge : GraphEdge) (sn tn : PositionedNode),
      edge ∈ layout.edges →
      layout.nodes.find? (fun n => n.id == edge.source) = some sn →
      layout.nodes.find? (fun n => n.id == edge.target) = some tn →
      ({ startX := sn.x + sn.width / 2, startY := sn.y + sn.height,
         endX := tn.x + tn.width / 2, endY := tn.y,
         text := jsOrEmpty edge.label } : ArrowShape) ∈ (generateTldrawShapes layout).arrows := by
  intro layout edge sn tn hmem hfs hft
  show _ ∈ layout.edges.filterMap (edgeArrow layout)
  refine List.mem_filterMap.mpr ⟨edge, hmem, ?_⟩
  have hs : (mapGet (buildNodeShapeMap layout.nodes 0) edge.source).isSome = true := by
    rw [mapGet_isSome, ← find?_isSome_eq_any, hfs]
    rfl
  have ht : (mapGet (buildNodeShapeMap layout.nodes 0) edge.target).isSome = true := by
    rw [mapGet_isSome, ← find?_isSome_eq_any, hft]
    rfl
  obtain ⟨a, ha⟩ := Option.isSome_iff_exists.mp hs
  obtain ⟨b, hb⟩ := Option.isSome_iff_exists.mp ht
  unfold edgeArrow
  rw [ha, hb, hfs, hft]

/-- Claim C3 witness: instantiating the amended theorem on the concrete
two-node layout exhibits the synthesized connector. -/
theorem connector_bottom_top_witness :
    ({ startX := exNodeA.x + exNodeA.width / 2, startY := exNodeA.y + exNodeA.height,
       endX := exNodeB.x + exNodeB.width / 2, endY := exNodeB.y,
       text := jsOrEmpty exEdgeAB.label } : ArrowShape) ∈ (generateTldrawShapes exLayoutLR).arrows :=
  connector_bottom_top exLayoutLR exEdgeAB exNodeA exNodeB (List.Mem.head _) rfl rfl

/-- Claim C6: every node in a layout result carries top-left coordinates
obtained from the engine's internal (dagre) center position by subtracting
half the node width and height, so `x + width/2` and `y + height/2` recover
that internal center exactly. -/
theorem getAutoLayout_topLeft :
    ∀ (dagrePos : DagreConfig → String → Rat × Rat) (gm : GraphModel)
      (o : LayoutOptions) (pn : PositionedNode),
      pn ∈ (getAutoLayout dagrePos gm o).nodes →
      pn.x + pn.width / 2 = (dagrePos (buildDagreConfig gm o) pn.id).1
      ∧ pn.y + pn.height / 2 = (dagrePos (buildDagreConfig gm o) pn.id).2 := by
  intro f gm o pn hmem
  unfold getAutoLayout at hmem
  simp only [List.mem_map] at hmem
  obtain ⟨node, hn, rfl⟩ := hmem
  constructor <;> ring

/-- Claim C6 witness: instantiating the conversion theorem on a concrete
one-node model and a constant position oracle. -/
theorem getAutoLayout_topLeft_witness :
    exPositionedNode.x + exPositionedNode.width / 2 =
      (exDagrePos (buildDagreConfig exGraphModel exOptions) exPositionedNode.id).1 :=
  (getAutoLayout_topLeft exDagrePos exGraphModel exOptions exPositionedNode
    (by
      unfold getAutoLayout exGraphModel
      simp only [List.mem_map, List.mem_singleton]
      refine ⟨{ id := "n1", label := "A", type := "start" }, rfl, ?_⟩
      unfold exPositionedNode exDagrePos exOptions
      simp
      norm_num)).1

/-- Claim C7: the layout engine is deterministic — with dagre modelled as a
(deterministic) position oracle, identical model and options give identical
layout results; the embedding is a pure function, reflecting that the source
uses no randomness or ambient mutable state. -/
theorem getAutoLayout_deterministic :
    ∀ (dagrePos : DagreConfig → String → Rat × Rat) (m1 m2 : GraphModel)
      (o1 o2 : LayoutOptions), m1 = m2 → o1 = o2 →
      getAutoLayout dagrePos m1 o1 = getAutoLayout dagrePos m2 o2 := by
  intro f m1 m2 o1 o2 h1 h2
  rw [h1, h2]

/-- Claim C7 witness. -/
theorem getAutoLayout_deterministic_witness :
    getAutoLayout exDagrePos exGraphModel exOptions =
      getAutoLayout exDagrePos exGraphModel exOptions :=
  getAutoLayout_deterministic exDagrePos exGraphModel exGraphModel exOptions exOptions rfl rfl

/-- Claim C8: layout of the empty model yields empty node and edge lists
(not an error), and layout of a one-node, zero-edge model yields exactly one
positioned node — for every position oracle and every options value. -/
theorem getAutoLayout_degenerate :
    (∀ (dagrePos : DagreConfig → String → Rat × Rat) (o : LayoutOptions),
      getAutoLayout dagrePos { nodes := [], edges := [] } o = { nodes := [], edges := [] })
    ∧ (∀ (dagrePos : DagreConfig → String → Rat × Rat) (o : LayoutOptions) (n : GraphNode),
      ((getAutoLayout dagrePos { nodes := [n], edges := [] } o).nodes).length = 1) :=
  ⟨fun _ _ => rfl, fun _ _ _ => rfl⟩
